import Mathlib

/-!
# Circuit breaker (`circuitbreaker.go`)

A shallow embedding of the Go package `circuitbreaker`: the `Settings` and
`Circuit` records, `NewCircuit`, `ConfigureCircuit`, `ResetCountFailure` and the
closure returned by `Circuit.Breaker`.

Modelling conventions

* `time.Time` is an integer number of nanoseconds on one time line,
  `time.Duration` is the `int64` nanosecond count of Go; `t.Add(d)` is `t + d`
  and `t.After(u)` is `u < t`.
* `uint` is a natural number below `uintSize`; `counterFailure++` wraps.
* every reading the closure takes from its environment during one call is a
  field of `Call`: the two clock readings, what `cfn(ctx)` returns and when,
  when `ctx.Done()` is closed, and the choice the Go runtime makes among the
  `select` cases that are ready together (Go picks one of them pseudo-randomly).
* the recovery branch of the fast check returns `cfn(ctx)` directly: it takes
  no write lock, stores no `lastAttempt`, runs no `select` and updates no
  counter after the reset.
* the mutex is not modelled; the state seen under the read lock and the state
  seen under the write lock are two arguments of `BreakerWith`, and the
  sequential `Breaker` passes the same state twice.
* the life of a circuit is a list of `Step`s (configure, call, reset) applied
  from `NewCircuit` by `runSteps`.
-/

namespace circuitbreaker

/-- Instants, in nanoseconds (`time.Time`). The zero value is `0`. -/
abbrev Time := Int

/-- Go `time.Duration`: a signed number of nanoseconds. -/
abbrev Duration := Int

/-- Number of values of Go `uint` on a 64-bit platform. -/
def uintSize : Nat := 2 ^ 64

def Second : Duration := 1000000000

def defaultTimeout : Duration := 5 * Second
def defaultRetryAt : Duration := 30 * Second
def defaultInterval : Duration := 0
def defaultFailureThreshold : Nat := 5

/-- Go `error` values: the two sentinels of the package and any other error
(a context error, an error of the wrapped operation), told apart by a tag. -/
inductive GoError where
  | ErrFailureThreshold : GoError
  | ErrTimeout : GoError
  | other (tag : Nat) : GoError
  deriving DecidableEq, Repr

structure Settings where
  TryingRecovery : Bool
  FailureThreshold : Nat
  Timeout : Duration
  Interval : Duration
  RetryAt : Duration
  deriving DecidableEq, Repr

/-- The `Circuit[T]` struct without its mutex; `Settings` is embedded. -/
structure Circuit extends Settings where
  counterFailure : Nat
  lastAttempt : Time
  deriving DecidableEq, Repr

/-- Constructor `NewCircuit`: default settings, zero counter, zero time. -/
def NewCircuit : Circuit :=
  { TryingRecovery := true
    FailureThreshold := defaultFailureThreshold
    Timeout := defaultTimeout
    Interval := defaultInterval
    RetryAt := defaultRetryAt
    counterFailure := 0
    lastAttempt := 0 }

/-- Method `ConfigureCircuit`. The first statement assigns to the parameter
`settings` only; the circuit's `TryingRecovery` is not written. -/
def ConfigureCircuit (c : Circuit) (settings : Settings) : Circuit :=
  let settings : Settings :=
    if !settings.TryingRecovery then { settings with TryingRecovery := false } else settings
  let c : Circuit :=
    if settings.FailureThreshold = 0 then { c with FailureThreshold := defaultFailureThreshold }
    else { c with FailureThreshold := settings.FailureThreshold }
  let c : Circuit :=
    if settings.Timeout = 0 then { c with Timeout := defaultTimeout }
    else { c with Timeout := settings.Timeout }
  let c : Circuit :=
    if settings.Interval = 0 then { c with Interval := defaultInterval }
    else { c with Interval := settings.Interval }
  let c : Circuit :=
    if settings.RetryAt = 0 then { c with RetryAt := defaultRetryAt }
    else { c with RetryAt := settings.RetryAt }
  c

/-- Method `ResetCountFailure`. -/
def ResetCountFailure (c : Circuit) : Circuit :=
  { c with counterFailure := 0 }

/-- Everything one call of the guarded function reads from its environment. -/
structure Call (T : Type) where
  /-- reading of `time.Now()` in the recovery test of the fast check -/
  now : Time
  /-- reading of `time.Now()` stored into `lastAttempt` -/
  started : Time
  /-- value returned by `cfn(ctx)` -/
  res : T
  /-- error returned by `cfn(ctx)`, `none` for `nil` -/
  err : Option GoError
  /-- nanoseconds until `cfn(ctx)` has returned; `none` when it never returns -/
  opAfter : Option Nat
  /-- nanoseconds until `ctx.Done()` is closed (`some 0`: cancelled before the
  call); `none` when the context is never done -/
  ctxAfter : Option Nat
  /-- value of `ctx.Err()` once the context is done -/
  ctxErr : GoError
  /-- the runtime's choice among the `select` cases that are ready together -/
  pick : Nat

/-- The three cases of the `select` statement, in source order. -/
inductive SelectCase where
  | done : SelectCase
  | ctxDone : SelectCase
  | timeout : SelectCase
  deriving DecidableEq, Repr

/-- Nanoseconds until the channel of `time.After(d)` delivers: at once for
`d ≤ 0`. -/
def timerAfter (d : Duration) : Nat := d.toNat

/-- Whether an event that happens after `e` has happened by `t`. -/
def readyBy (e : Option Nat) (t : Nat) : Bool :=
  match e with
  | some d => decide (d ≤ t)
  | none => false

/-- The instant the `select` stops waiting: the earliest of the three events.
The timer always fires, so there is one. -/
def firstEvent (timeout : Duration) (opAfter ctxAfter : Option Nat) : Nat :=
  let t := timerAfter timeout
  let t := match opAfter with
    | some d => min d t
    | none => t
  match ctxAfter with
  | some d => min d t
  | none => t

/-- The cases that can proceed when the `select` stops waiting. -/
def readyCases (timeout : Duration) (opAfter ctxAfter : Option Nat) : List SelectCase :=
  let t := firstEvent timeout opAfter ctxAfter
  (if readyBy opAfter t then [SelectCase.done] else []) ++
  (if readyBy ctxAfter t then [SelectCase.ctxDone] else []) ++
  (if decide (timerAfter timeout ≤ t) then [SelectCase.timeout] else [])

/-- Go `select`: one of the cases that can proceed, chosen by the runtime. -/
def selectCase (timeout : Duration) (opAfter ctxAfter : Option Nat) (pick : Nat) : SelectCase :=
  let cs := readyCases timeout opAfter ctxAfter
  cs.getD (pick % cs.length) SelectCase.timeout

/-- What a call hands back to its caller. `ret = none`: the call never
returns. `invoked`: whether `cfn(ctx)` was called. -/
structure Result (T : Type) where
  invoked : Bool
  ret : Option (T × Option GoError)
  deriving DecidableEq, Repr

/-- The statement `return empty, ErrFailureThreshold`. -/
def rejected (T : Type) [Inhabited T] : Result T :=
  { invoked := false, ret := some (default, some GoError.ErrFailureThreshold) }

/-- The section under the write lock once both checks have passed: the pacing
wait (it changes no state; the clock reading taken after it is `call.started`),
the store into `lastAttempt`, and the bounded execution, `cfn(ctx)` in a
goroutine raced against the context and the timer, with the counter update and
the returned pair of each `select` case. -/
def attempt {T : Type} [Inhabited T] (c : Circuit) (call : Call T) : Circuit × Result T :=
  let c : Circuit := { c with lastAttempt := call.started }
  match selectCase c.Timeout call.opAfter call.ctxAfter call.pick with
  | SelectCase.done =>
    match call.err with
    | some e =>
      ({ c with counterFailure := (c.counterFailure + 1) % uintSize },
       { invoked := true, ret := some (call.res, some e) })
    | none =>
      ({ c with counterFailure := 0 }, { invoked := true, ret := some (call.res, none) })
  | SelectCase.ctxDone =>
    ({ c with counterFailure := (c.counterFailure + 1) % uintSize },
     { invoked := true, ret := some (default, some call.ctxErr) })
  | SelectCase.timeout =>
    ({ c with counterFailure := (c.counterFailure + 1) % uintSize },
     { invoked := true, ret := some (default, some GoError.ErrTimeout) })

/-- The closure returned by `Breaker`, for a wrapped function whose behaviour
in this call is `call`. `c` is the circuit as the fast check sees it under the
read lock, `c2` the circuit as found once the write lock is held. Returns the
circuit the call leaves behind and the result. -/
def BreakerWith {T : Type} [Inhabited T] (c c2 : Circuit) (call : Call T) : Circuit × Result T :=
  if c.counterFailure ≥ c.FailureThreshold then
    if decide (c.lastAttempt + c.RetryAt < call.now) && c.TryingRecovery then
      (ResetCountFailure c,
       { invoked := true, ret := call.opAfter.map (fun _ => (call.res, call.err)) })
    else
      (c, rejected T)
  else if c2.counterFailure ≥ c2.FailureThreshold then
    (c2, rejected T)
  else
    attempt c2 call

/-- One call of the guarded function with no other caller in between. -/
def Breaker {T : Type} [Inhabited T] (c : Circuit) (call : Call T) : Circuit × Result T :=
  BreakerWith c c call

/-- Successive calls of the guarded function: the final circuit and the
results in order. -/
def runCalls {T : Type} [Inhabited T] (c : Circuit) : List (Call T) → Circuit × List (Result T)
  | [] => (c, [])
  | call :: rest =>
    let r := Breaker c call
    let rs := runCalls r.1 rest
    (rs.1, r.2 :: rs.2)

/-- A result that carries a non-nil error. -/
def Result.failed {T : Type} (r : Result T) : Bool :=
  match r.ret with
  | some (_, some _) => true
  | _ => false

/-- A call with a context that is cancelled before the call and a wrapped
function that has not returned after ten seconds, as in
`TestBreakerWithFailureThreshold`. -/
def cancelledCall (now : Time) : Call Nat :=
  { now := now, started := now, res := 0, err := none, opAfter := some 10000000000,
    ctxAfter := some 0, ctxErr := GoError.other 1, pick := 0 }

/-- A call whose wrapped function returns `v` with a nil error after one
millisecond, under a context that is never done. -/
def okCall (now : Time) (v : Nat) : Call Nat :=
  { now := now, started := now, res := v, err := none, opAfter := some 1000000,
    ctxAfter := none, ctxErr := GoError.other 1, pick := 0 }

/-- A call whose wrapped function returns `v` with error `e` after one
millisecond, under a context that is never done. -/
def errCall (now : Time) (v : Nat) (e : GoError) : Call Nat :=
  { now := now, started := now, res := v, err := some e, opAfter := some 1000000,
    ctxAfter := none, ctxErr := GoError.other 1, pick := 0 }

/-- A call whose wrapped function never returns, under a context that is never
done. -/
def hangingCall (now : Time) : Call Nat :=
  { now := now, started := now, res := 0, err := none, opAfter := none,
    ctxAfter := none, ctxErr := GoError.other 1, pick := 0 }

/-- A call with a context that is cancelled before the call and a wrapped
function that never returns, in which the runtime takes the second of the
`select` cases that are ready. -/
def cancelledCallSecondReady : Call Nat :=
  { now := 1, started := 1, res := 0, err := none, opAfter := none,
    ctxAfter := some 0, ctxErr := GoError.other 1, pick := 1 }

/-- A call with a context that is cancelled before the call and a wrapped
function whose result `7, nil` is already waiting on `done` when the `select`
is entered, in which the runtime takes the first of the cases that are ready. -/
def cancelledCallInstantOp : Call Nat :=
  { now := 1, started := 1, res := 7, err := none, opAfter := some 0,
    ctxAfter := some 0, ctxErr := GoError.other 1, pick := 0 }

/-- The settings literal `Settings{Timeout: -1}`. -/
def negativeTimeout : Settings :=
  { TryingRecovery := false, FailureThreshold := 0, Timeout := -1, Interval := 0, RetryAt := 0 }

/-- A circuit with the default settings whose counter has reached the
threshold, last attempted at instant `0`. -/
def openCircuit : Circuit :=
  { NewCircuit with counterFailure := 5 }

/-- The open circuit with `TryingRecovery` switched off. -/
def openNoRecovery : Circuit :=
  { openCircuit with TryingRecovery := false }

/-- A circuit whose `TryingRecovery` is false, as the zero value of the struct
has it or as the caller sets the exported field. -/
def noRecoveryCircuit : Circuit :=
  { NewCircuit with TryingRecovery := false }

/-- The settings literal `Settings{TryingRecovery: true}`. -/
def recoverySettings : Settings :=
  { TryingRecovery := true, FailureThreshold := 0, Timeout := 0, Interval := 0, RetryAt := 0 }

/-- The settings literal `Settings{}`. -/
def zeroSettings : Settings :=
  { TryingRecovery := false, FailureThreshold := 0, Timeout := 0, Interval := 0, RetryAt := 0 }

/-- One use of the circuit by its owner: a configuration, a guarded call or a
manual reset. -/
inductive Step (T : Type) where
  | configure (settings : Settings) : Step T
  | call (call : Call T) : Step T
  | reset : Step T

/-- The circuit after one step. -/
def applyStep {T : Type} [Inhabited T] (c : Circuit) : Step T → Circuit
  | Step.configure settings => ConfigureCircuit c settings
  | Step.call call => (Breaker c call).1
  | Step.reset => ResetCountFailure c

/-- The circuit after a sequence of steps. -/
def runSteps {T : Type} [Inhabited T] (c : Circuit) (steps : List (Step T)) : Circuit :=
  steps.foldl applyStep c

/-- Whether a step leaves the settings alone. -/
def Step.keepsSettings {T : Type} : Step T → Bool
  | Step.configure _ => false
  | Step.call _ => true
  | Step.reset => true

/-- A call whose wrapped function returns `0` with a nil error after ten
seconds, under a context that is never done. -/
def slowCall (now : Time) : Call Nat :=
  { now := now, started := now, res := 0, err := none, opAfter := some 10000000000,
    ctxAfter := none, ctxErr := GoError.other 1, pick := 0 }

/-- The instant at which a call starts `cfn(ctx)`: on the recovery branch right
after the clock reading of the recovery test, with no lock held; on the
ordinary path right after the clock reading stored into `lastAttempt`, under
the write lock; `none` for a call that is rejected. `c` and `c2` are the two
snapshots of `BreakerWith`. -/
def execStart {T : Type} (c c2 : Circuit) (call : Call T) : Option Time :=
  if c.counterFailure ≥ c.FailureThreshold then
    if decide (c.lastAttempt + c.RetryAt < call.now) && c.TryingRecovery then
      some call.now
    else
      none
  else if c2.counterFailure ≥ c2.FailureThreshold then
    none
  else
    some call.started

/-- Whether an execution of `cfn(ctx)` that began at `start` and returns after
`opAfter` nanoseconds (never, for `none`) is running at instant `t`. -/
def inFlight (start : Time) (opAfter : Option Nat) (t : Time) : Bool :=
  decide (start ≤ t) &&
    (match opAfter with
     | some d => decide (t < start + d)
     | none => true)

/-- Whether the wrapped function started by a call on circuit `c` (no other
caller between its two checks) is running at instant `t`. -/
def running {T : Type} (c : Circuit) (call : Call T) (t : Time) : Bool :=
  match execStart c c call with
  | some start => inFlight start call.opAfter t
  | none => false

/-! ## The `select` statement -/

theorem selectCase_timeout_of_first (timeout : Duration) (opAfter ctxAfter : Option Nat)
    (pick : Nat)
    (hop : ∀ d, opAfter = some d → timerAfter timeout < d)
    (hctx : ∀ d, ctxAfter = some d → timerAfter timeout < d) :
    selectCase timeout opAfter ctxAfter pick = SelectCase.timeout := by
  have hfirst : firstEvent timeout opAfter ctxAfter = timerAfter timeout := by
    unfold firstEvent
    cases opAfter with
    | none =>
      cases ctxAfter with
      | none => rfl
      | some b => have := hctx b rfl; simp only []; omega
    | some a =>
      have ha := hop a rfl
      cases ctxAfter with
      | none => simp only []; omega
      | some b => have := hctx b rfl; simp only []; omega
  have hcs : readyCases timeout opAfter ctxAfter = [SelectCase.timeout] := by
    unfold readyCases
    rw [hfirst]
    have h1 : readyBy opAfter (timerAfter timeout) = false := by
      cases opAfter with
      | none => rfl
      | some a => have := hop a rfl; simp only [readyBy, decide_eq_false_iff_not]; omega
    have h2 : readyBy ctxAfter (timerAfter timeout) = false := by
      cases ctxAfter with
      | none => rfl
      | some b => have := hctx b rfl; simp only [readyBy, decide_eq_false_iff_not]; omega
    simp [h1, h2]
  unfold selectCase
  rw [hcs]
  simp

theorem selectCase_done_of_first (timeout : Duration) (d : Nat) (ctxAfter : Option Nat)
    (pick : Nat)
    (htimer : d < timerAfter timeout)
    (hctx : ∀ d', ctxAfter = some d' → d < d') :
    selectCase timeout (some d) ctxAfter pick = SelectCase.done := by
  have hfirst : firstEvent timeout (some d) ctxAfter = d := by
    unfold firstEvent
    cases ctxAfter with
    | none => simp only []; omega
    | some b => have := hctx b rfl; simp only []; omega
  have hcs : readyCases timeout (some d) ctxAfter = [SelectCase.done] := by
    unfold readyCases
    rw [hfirst]
    have h2 : readyBy ctxAfter d = false := by
      cases ctxAfter with
      | none => rfl
      | some b => have := hctx b rfl; simp only [readyBy, decide_eq_false_iff_not]; omega
    have h3 : ¬ timerAfter timeout ≤ d := by omega
    simp only [readyBy] at h2
    simp [h2, h3, readyBy]
  unfold selectCase
  rw [hcs]
  simp [Nat.mod_one]

theorem selectCase_ctxDone_of_first (timeout : Duration) (opAfter : Option Nat) (d : Nat)
    (pick : Nat)
    (htimer : d < timerAfter timeout)
    (hop : ∀ d', opAfter = some d' → d < d') :
    selectCase timeout opAfter (some d) pick = SelectCase.ctxDone := by
  have hfirst : firstEvent timeout opAfter (some d) = d := by
    unfold firstEvent
    cases opAfter with
    | none => simp only []; omega
    | some a => have := hop a rfl; simp only []; omega
  have hcs : readyCases timeout opAfter (some d) = [SelectCase.ctxDone] := by
    unfold readyCases
    rw [hfirst]
    have h1 : readyBy opAfter d = false := by
      cases opAfter with
      | none => rfl
      | some a => have := hop a rfl; simp only [readyBy, decide_eq_false_iff_not]; omega
    have h3 : ¬ timerAfter timeout ≤ d := by omega
    simp only [readyBy] at h1
    simp [h1, h3, readyBy]
  unfold selectCase
  rw [hcs]
  simp [Nat.mod_one]

/-! ## One attempt -/

theorem attempt_timeout {T : Type} [Inhabited T] (c : Circuit) (call : Call T)
    (hs : selectCase c.Timeout call.opAfter call.ctxAfter call.pick = SelectCase.timeout) :
    attempt c call =
      ({ c with lastAttempt := call.started,
                counterFailure := (c.counterFailure + 1) % uintSize },
       { invoked := true, ret := some (default, some GoError.ErrTimeout) }) := by
  simp only [attempt, hs]

theorem attempt_ctxDone {T : Type} [Inhabited T] (c : Circuit) (call : Call T)
    (hs : selectCase c.Timeout call.opAfter call.ctxAfter call.pick = SelectCase.ctxDone) :
    attempt c call =
      ({ c with lastAttempt := call.started,
                counterFailure := (c.counterFailure + 1) % uintSize },
       { invoked := true, ret := some (default, some call.ctxErr) }) := by
  simp only [attempt, hs]

theorem attempt_done_err {T : Type} [Inhabited T] (c : Circuit) (call : Call T) (e : GoError)
    (hs : selectCase c.Timeout call.opAfter call.ctxAfter call.pick = SelectCase.done)
    (he : call.err = some e) :
    attempt c call =
      ({ c with lastAttempt := call.started,
                counterFailure := (c.counterFailure + 1) % uintSize },
       { invoked := true, ret := some (call.res, some e) }) := by
  simp only [attempt, hs, he]

theorem attempt_done_ok {T : Type} [Inhabited T] (c : Circuit) (call : Call T)
    (hs : selectCase c.Timeout call.opAfter call.ctxAfter call.pick = SelectCase.done)
    (he : call.err = none) :
    attempt c call =
      ({ c with lastAttempt := call.started, counterFailure := 0 },
       { invoked := true, ret := some (call.res, none) }) := by
  simp only [attempt, hs, he]

theorem Breaker_below {T : Type} [Inhabited T] (c : Circuit) (call : Call T)
    (h : c.counterFailure < c.FailureThreshold) : Breaker c call = attempt c call := by
  have h' : ¬ c.counterFailure ≥ c.FailureThreshold := by omega
  simp [Breaker, BreakerWith, h']

theorem attempt_invoked {T : Type} [Inhabited T] (c : Circuit) (call : Call T) :
    (attempt c call).2.invoked = true := by
  cases hs : selectCase c.Timeout call.opAfter call.ctxAfter call.pick with
  | done =>
    cases he : call.err with
    | none => rw [attempt_done_ok c call hs he]
    | some e => rw [attempt_done_err c call e hs he]
  | ctxDone => rw [attempt_ctxDone c call hs]
  | timeout => rw [attempt_timeout c call hs]

theorem attempt_toSettings {T : Type} [Inhabited T] (c : Circuit) (call : Call T) :
    (attempt c call).1.toSettings = c.toSettings := by
  cases hs : selectCase c.Timeout call.opAfter call.ctxAfter call.pick with
  | done =>
    cases he : call.err with
    | none => rw [attempt_done_ok c call hs he]
    | some e => rw [attempt_done_err c call e hs he]
  | ctxDone => rw [attempt_ctxDone c call hs]
  | timeout => rw [attempt_timeout c call hs]

theorem attempt_lastAttempt {T : Type} [Inhabited T] (c : Circuit) (call : Call T) :
    (attempt c call).1.lastAttempt = call.started := by
  cases hs : selectCase c.Timeout call.opAfter call.ctxAfter call.pick with
  | done =>
    cases he : call.err with
    | none => rw [attempt_done_ok c call hs he]
    | some e => rw [attempt_done_err c call e hs he]
  | ctxDone => rw [attempt_ctxDone c call hs]
  | timeout => rw [attempt_timeout c call hs]

theorem attempt_failed_counter {T : Type} [Inhabited T] (c : Circuit) (call : Call T)
    (hf : (attempt c call).2.failed = true) (hlt : c.counterFailure + 1 < uintSize) :
    (attempt c call).1.counterFailure = c.counterFailure + 1 := by
  cases hs : selectCase c.Timeout call.opAfter call.ctxAfter call.pick with
  | done =>
    cases he : call.err with
    | none =>
      rw [attempt_done_ok c call hs he] at hf
      simp [Result.failed] at hf
    | some e =>
      rw [attempt_done_err c call e hs he]
      exact Nat.mod_eq_of_lt hlt
  | ctxDone =>
    rw [attempt_ctxDone c call hs]
    exact Nat.mod_eq_of_lt hlt
  | timeout =>
    rw [attempt_timeout c call hs]
    exact Nat.mod_eq_of_lt hlt

theorem attempt_result_congr {T : Type} [Inhabited T] (c c2 : Circuit) (call : Call T)
    (h : c.toSettings = c2.toSettings) : (attempt c call).2 = (attempt c2 call).2 := by
  have ht : c.Timeout = c2.Timeout := by rw [h]
  cases hs : selectCase c.Timeout call.opAfter call.ctxAfter call.pick with
  | done =>
    cases he : call.err with
    | none => rw [attempt_done_ok c call hs he, attempt_done_ok c2 call (ht ▸ hs) he]
    | some e => rw [attempt_done_err c call e hs he, attempt_done_err c2 call e (ht ▸ hs) he]
  | ctxDone => rw [attempt_ctxDone c call hs, attempt_ctxDone c2 call (ht ▸ hs)]
  | timeout => rw [attempt_timeout c call hs, attempt_timeout c2 call (ht ▸ hs)]

/-! ## Runs of failing calls -/

/-- While the counter stays below the threshold, a run of calls that all come
back with an error is a run of attempts, each of which adds one to the
counter. -/
theorem runCalls_failed {T : Type} [Inhabited T] (calls : List (Call T)) :
    ∀ c : Circuit, c.counterFailure + calls.length ≤ c.FailureThreshold →
      c.FailureThreshold < uintSize →
      (∀ r ∈ (runCalls c calls).2, r.failed = true) →
      (runCalls c calls).1.counterFailure = c.counterFailure + calls.length ∧
      (runCalls c calls).1.toSettings = c.toSettings ∧
      (runCalls c calls).2 = calls.map (fun call => (attempt c call).2) ∧
      (runCalls c calls).1.lastAttempt =
        (calls.getLast?.map (fun call => call.started)).getD c.lastAttempt := by
  induction calls with
  | nil => intro c _ _ _; simp [runCalls]
  | cons call rest ih =>
    intro c hlen hu hf
    simp only [List.length_cons] at hlen
    have hlt : c.counterFailure < c.FailureThreshold := by omega
    have hB : Breaker c call = attempt c call := Breaker_below c call hlt
    have hrun : runCalls c (call :: rest) =
        ((runCalls (attempt c call).1 rest).1,
         (attempt c call).2 :: (runCalls (attempt c call).1 rest).2) := by
      simp only [runCalls, hB]
    rw [hrun] at hf ⊢
    have hfail : (attempt c call).2.failed = true := hf _ (List.mem_cons_self _ _)
    have hcnt : (attempt c call).1.counterFailure = c.counterFailure + 1 :=
      attempt_failed_counter c call hfail (by omega)
    have hset : (attempt c call).1.toSettings = c.toSettings := attempt_toSettings c call
    have hthr : (attempt c call).1.FailureThreshold = c.FailureThreshold := by rw [hset]
    have hrest := ih (attempt c call).1 (by rw [hcnt, hthr]; omega) (by rw [hthr]; exact hu)
      (fun r hr => hf r (List.mem_cons_of_mem _ hr))
    obtain ⟨h1, h2, h3, h4⟩ := hrest
    refine ⟨?_, ?_, ?_, ?_⟩
    · simp only [List.length_cons]
      rw [h1, hcnt]; omega
    · rw [h2, hset]
    · simp only [List.map_cons]
      rw [h3]
      congr 1
      apply List.map_congr_left
      intro x _
      exact attempt_result_congr _ _ x hset
    · simp only []
      rw [h4, attempt_lastAttempt]
      cases rest with
      | nil => simp
      | cons y ys =>
        rw [List.getLast?_cons_cons, List.getLast?_eq_getLast _ (List.cons_ne_nil y ys)]
        rfl

/-- An open circuit turns a call away when the recovery test fails. -/
theorem Breaker_open_reject {T : Type} [Inhabited T] (c : Circuit) (call : Call T)
    (hopen : c.FailureThreshold ≤ c.counterFailure)
    (hno : ¬ (c.lastAttempt + c.RetryAt < call.now ∧ c.TryingRecovery = true)) :
    Breaker c call = (c, rejected T) := by
  have h' : c.counterFailure ≥ c.FailureThreshold := hopen
  simp only [Breaker, BreakerWith, h', if_true]
  rw [if_neg]
  simpa using hno

/-- An open circuit that may try to recover lets the call through: the counter
is reset and `cfn(ctx)` is returned as it is. -/
theorem Breaker_open_recover {T : Type} [Inhabited T] (c : Circuit) (call : Call T)
    (hopen : c.FailureThreshold ≤ c.counterFailure)
    (hpast : c.lastAttempt + c.RetryAt < call.now) (hrec : c.TryingRecovery = true) :
    Breaker c call =
      (ResetCountFailure c,
       { invoked := true, ret := call.opAfter.map (fun _ => (call.res, call.err)) }) := by
  have h' : c.counterFailure ≥ c.FailureThreshold := hopen
  simp [Breaker, BreakerWith, h', hpast, hrec]

theorem runCalls_open_no_recovery {T : Type} [Inhabited T] (c : Circuit)
    (hopen : c.FailureThreshold ≤ c.counterFailure) (hrec : c.TryingRecovery = false)
    (calls : List (Call T)) :
    runCalls c calls = (c, calls.map (fun _ => rejected T)) := by
  induction calls with
  | nil => rfl
  | cons call rest ih =>
    have hB : Breaker c call = (c, rejected T) :=
      Breaker_open_reject c call hopen (by simp [hrec])
    simp only [runCalls, hB, ih, List.map_cons]

/-! ## Claims -/

/-- C1. A circuit with a zero failure counter and threshold `N` (any `N`, so
every `N ≥ 1`) that has made `N` successive guarded calls, each of which came
back with an error, rejects the next guarded call when that call is made no
later than `RetryAt` after the last attempt: the call returns the zero value
with `ErrFailureThreshold`, does not invoke the wrapped function and leaves the
circuit as it was. -/
theorem threshold_reached_rejects_next {T : Type} [Inhabited T] (c : Circuit)
    (calls : List (Call T)) (next : Call T)
    (h0 : c.counterFailure = 0)
    (hu : c.FailureThreshold < uintSize)
    (hlen : calls.length = c.FailureThreshold)
    (hfail : ∀ r ∈ (runCalls c calls).2, r.failed = true)
    (hsoon : next.now ≤ (runCalls c calls).1.lastAttempt + (runCalls c calls).1.RetryAt) :
    (Breaker (runCalls c calls).1 next).2.ret
      = some (default, some GoError.ErrFailureThreshold) ∧
    (Breaker (runCalls c calls).1 next).2.invoked = false ∧
    (Breaker (runCalls c calls).1 next).1 = (runCalls c calls).1 := by
  obtain ⟨hcnt, hset, _, _⟩ := runCalls_failed calls c (by omega) hu hfail
  have hB : Breaker (runCalls c calls).1 next = ((runCalls c calls).1, rejected T) := by
    apply Breaker_open_reject
    · have hthr : (runCalls c calls).1.FailureThreshold = c.FailureThreshold := by rw [hset]
      rw [hcnt, hthr]; omega
    · intro h
      exact absurd h.1 (not_lt.mpr hsoon)
  rw [hB]
  exact ⟨rfl, rfl, rfl⟩

theorem threshold_reached_rejects_next_witness :
    (runCalls NewCircuit (List.map cancelledCall [1, 2, 3, 4, 5])).1.counterFailure = 5 ∧
    (Breaker (runCalls NewCircuit (List.map cancelledCall [1, 2, 3, 4, 5])).1
      (cancelledCall 6)).2.ret = some (default, some GoError.ErrFailureThreshold) :=
  ⟨by decide,
   (threshold_reached_rejects_next NewCircuit (List.map cancelledCall [1, 2, 3, 4, 5])
      (cancelledCall 6) (by decide) (by decide) (by decide) (by decide)
      (by decide)).1⟩

/-- C4. A circuit whose counter has reached the threshold and whose
`TryingRecovery` is false rejects every guarded call of every run of successive
calls, whatever the clock readings: each call returns the zero value with
`ErrFailureThreshold`, none invokes the wrapped function, and the circuit stays
as it was. -/
theorem open_without_recovery_rejects_forever {T : Type} [Inhabited T] (c : Circuit)
    (calls : List (Call T))
    (hopen : c.FailureThreshold ≤ c.counterFailure) (hrec : c.TryingRecovery = false) :
    (runCalls c calls).1 = c ∧
    (runCalls c calls).2.length = calls.length ∧
    ∀ r ∈ (runCalls c calls).2,
      r.invoked = false ∧ r.ret = some (default, some GoError.ErrFailureThreshold) := by
  rw [runCalls_open_no_recovery c hopen hrec calls]
  refine ⟨rfl, by simp, ?_⟩
  intro r hr
  simp only [List.mem_map] at hr
  obtain ⟨_, _, rfl⟩ := hr
  exact ⟨rfl, rfl⟩

theorem open_without_recovery_rejects_forever_witness :
    openNoRecovery.FailureThreshold ≤ openNoRecovery.counterFailure ∧
    openNoRecovery.TryingRecovery = false ∧
    (runCalls openNoRecovery [okCall 1 7, okCall 1000000000000000 8]).1 = openNoRecovery ∧
    (runCalls openNoRecovery [okCall 1 7, okCall 1000000000000000 8]).2.length = 2 ∧
    ∀ r ∈ (runCalls openNoRecovery [okCall 1 7, okCall 1000000000000000 8]).2,
      r.invoked = false ∧ r.ret = some (default, some GoError.ErrFailureThreshold) :=
  ⟨by decide, by decide,
   open_without_recovery_rejects_forever openNoRecovery
     [okCall 1 7, okCall 1000000000000000 8] (by decide) (by decide)⟩

/-- C5. Below the threshold, a guarded call in which the timeout elapses before
the wrapped function has returned and before the context is done returns the
zero value with `ErrTimeout`; the failure counter is its previous value plus
one (and `lastAttempt` is the start of the attempt). -/
theorem timeout_returns_ErrTimeout {T : Type} [Inhabited T] (c : Circuit) (call : Call T)
    (hlt : c.counterFailure < c.FailureThreshold)
    (hu : c.FailureThreshold < uintSize)
    (hop : ∀ d, call.opAfter = some d → timerAfter c.Timeout < d)
    (hctx : ∀ d, call.ctxAfter = some d → timerAfter c.Timeout < d) :
    (Breaker c call).2.ret = some (default, some GoError.ErrTimeout) ∧
    (Breaker c call).1.counterFailure = c.counterFailure + 1 ∧
    (Breaker c call).1 =
      { c with lastAttempt := call.started, counterFailure := c.counterFailure + 1 } := by
  have hs := selectCase_timeout_of_first c.Timeout call.opAfter call.ctxAfter call.pick hop hctx
  have hmod : (c.counterFailure + 1) % uintSize = c.counterFailure + 1 :=
    Nat.mod_eq_of_lt (by omega)
  rw [Breaker_below c call hlt, attempt_timeout c call hs, hmod]
  exact ⟨rfl, rfl, rfl⟩

theorem timeout_returns_ErrTimeout_witness :
    (Breaker NewCircuit (hangingCall 3)).2.ret = some (default, some GoError.ErrTimeout) ∧
    (Breaker NewCircuit (hangingCall 3)).1.counterFailure = 0 + 1 :=
  have h := timeout_returns_ErrTimeout NewCircuit (hangingCall 3) (by decide) (by decide)
    (by intro d hd; cases hd) (by intro d hd; cases hd)
  ⟨h.1, h.2.1⟩

/-- C7. Below the threshold, whatever the value of the failure counter, a
guarded call whose wrapped function returns with a nil error before the timeout
elapses and before the context is done returns exactly the value of the wrapped
function with a nil error and leaves the failure counter at zero. -/
theorem success_resets_counter {T : Type} [Inhabited T] (c : Circuit) (call : Call T) (d : Nat)
    (hlt : c.counterFailure < c.FailureThreshold)
    (hop : call.opAfter = some d) (herr : call.err = none)
    (htimer : d < timerAfter c.Timeout)
    (hctx : ∀ d', call.ctxAfter = some d' → d < d') :
    (Breaker c call).2.ret = some (call.res, none) ∧
    (Breaker c call).1.counterFailure = 0 ∧
    (Breaker c call).1 = { c with lastAttempt := call.started, counterFailure := 0 } := by
  have hs : selectCase c.Timeout call.opAfter call.ctxAfter call.pick = SelectCase.done := by
    rw [hop]
    exact selectCase_done_of_first c.Timeout d call.ctxAfter call.pick htimer hctx
  rw [Breaker_below c call hlt, attempt_done_ok c call hs herr]
  exact ⟨rfl, rfl, rfl⟩

theorem success_resets_counter_witness :
    (Breaker { NewCircuit with counterFailure := 4 } (okCall 3 42)).2.ret = some (42, none) ∧
    (Breaker { NewCircuit with counterFailure := 4 } (okCall 3 42)).1.counterFailure = 0 :=
  have h := success_resets_counter { NewCircuit with counterFailure := 4 } (okCall 3 42)
    1000000 (by decide) rfl rfl (by decide) (by intro d hd; cases hd)
  ⟨h.1, h.2.1⟩

/-- C8. Below the threshold, a guarded call whose wrapped function returns with
an error `e` before the timeout elapses and before the context is done returns
that same `e`; the failure counter is its previous value plus one. -/
theorem operation_error_passed_through {T : Type} [Inhabited T] (c : Circuit) (call : Call T)
    (d : Nat) (e : GoError)
    (hlt : c.counterFailure < c.FailureThreshold)
    (hu : c.FailureThreshold < uintSize)
    (hop : call.opAfter = some d) (herr : call.err = some e)
    (htimer : d < timerAfter c.Timeout)
    (hctx : ∀ d', call.ctxAfter = some d' → d < d') :
    (Breaker c call).2.ret = some (call.res, some e) ∧
    (Breaker c call).1.counterFailure = c.counterFailure + 1 ∧
    (Breaker c call).1 =
      { c with lastAttempt := call.started, counterFailure := c.counterFailure + 1 } := by
  have hs : selectCase c.Timeout call.opAfter call.ctxAfter call.pick = SelectCase.done := by
    rw [hop]
    exact selectCase_done_of_first c.Timeout d call.ctxAfter call.pick htimer hctx
  have hmod : (c.counterFailure + 1) % uintSize = c.counterFailure + 1 :=
    Nat.mod_eq_of_lt (by omega)
  rw [Breaker_below c call hlt, attempt_done_err c call e hs herr, hmod]
  exact ⟨rfl, rfl, rfl⟩

theorem operation_error_passed_through_witness :
    (Breaker NewCircuit (errCall 3 0 (GoError.other 9))).2.ret
      = some (0, some (GoError.other 9)) ∧
    (Breaker NewCircuit (errCall 3 0 (GoError.other 9))).1.counterFailure = 0 + 1 :=
  have h := operation_error_passed_through NewCircuit (errCall 3 0 (GoError.other 9))
    1000000 (GoError.other 9) (by decide) (by decide) rfl rfl (by decide)
    (by intro d hd; cases hd)
  ⟨h.1, h.2.1⟩

/-- C9. On a circuit with a zero failure counter and threshold `N`, in a run of
`k ≤ N` successive guarded calls that all come back with an error, every call
(the `N`-th included) invokes the wrapped function and returns the outcome of
its own attempt: the pair of the wrapped function, the zero value with the
context error, or the zero value with `ErrTimeout`; none is the rejection. -/
theorem failing_calls_up_to_threshold_execute {T : Type} [Inhabited T] (c : Circuit)
    (calls : List (Call T))
    (h0 : c.counterFailure = 0)
    (hu : c.FailureThreshold < uintSize)
    (hlen : calls.length ≤ c.FailureThreshold)
    (hfail : ∀ r ∈ (runCalls c calls).2, r.failed = true) :
    (runCalls c calls).2 = calls.map (fun call => (attempt c call).2) ∧
    (∀ r ∈ (runCalls c calls).2, r.invoked = true ∧ r ≠ rejected T) ∧
    (∀ call ∈ calls,
      (attempt c call).2.ret = some (call.res, call.err) ∨
      (attempt c call).2.ret = some (default, some call.ctxErr) ∨
      (attempt c call).2.ret = some (default, some GoError.ErrTimeout)) := by
  obtain ⟨_, _, hres, _⟩ := runCalls_failed calls c (by omega) hu hfail
  refine ⟨hres, ?_, ?_⟩
  · intro r hr
    rw [hres, List.mem_map] at hr
    obtain ⟨call, _, rfl⟩ := hr
    have hi := attempt_invoked c call
    refine ⟨hi, ?_⟩
    intro hrej
    rw [hrej] at hi
    exact Bool.false_ne_true hi
  · intro call _
    cases hs : selectCase c.Timeout call.opAfter call.ctxAfter call.pick with
    | done =>
      cases he : call.err with
      | none => rw [attempt_done_ok c call hs he]; exact Or.inl rfl
      | some e => rw [attempt_done_err c call e hs he]; exact Or.inl rfl
    | ctxDone => rw [attempt_ctxDone c call hs]; exact Or.inr (Or.inl rfl)
    | timeout => rw [attempt_timeout c call hs]; exact Or.inr (Or.inr rfl)

theorem failing_calls_up_to_threshold_execute_witness :
    (runCalls NewCircuit (List.map cancelledCall [1, 2, 3, 4, 5])).2
      = (List.map cancelledCall [1, 2, 3, 4, 5]).map (fun call => (attempt NewCircuit call).2) ∧
    (attempt NewCircuit (cancelledCall 5)).2.ret = some (default, some (GoError.other 1)) :=
  ⟨(failing_calls_up_to_threshold_execute NewCircuit (List.map cancelledCall [1, 2, 3, 4, 5])
      (by decide) (by decide) (by decide) (by decide)).1, by decide⟩

/-- C2, as stated, fails. The open circuit with the default settings, last
attempted at instant `0`, admits a probe 31 seconds later whose wrapped function
returns an error. The counter is then zero, and the call made one second after
the probe, well within `RetryAt`, is not rejected: it invokes the wrapped
function and returns that function's error. -/
theorem failed_probe_reopens_counterexample :
    openCircuit.FailureThreshold ≤ openCircuit.counterFailure ∧
    openCircuit.TryingRecovery = true ∧
    openCircuit.lastAttempt + openCircuit.RetryAt < (errCall (31 * Second) 0 (GoError.other 9)).now ∧
    (Breaker openCircuit (errCall (31 * Second) 0 (GoError.other 9))).2
      = { invoked := true, ret := some (0, some (GoError.other 9)) } ∧
    (errCall (32 * Second) 0 (GoError.other 9)).now
      < (errCall (31 * Second) 0 (GoError.other 9)).now + openCircuit.RetryAt ∧
    (Breaker (Breaker openCircuit (errCall (31 * Second) 0 (GoError.other 9))).1
      (errCall (32 * Second) 0 (GoError.other 9))).2
      = { invoked := true, ret := some (0, some (GoError.other 9)) } := by
  decide

/-- C2, amended. On an open circuit with `TryingRecovery` true and a threshold
of at least two, whose last attempt lies more than `RetryAt` in the past, the
call is admitted as the recovery probe and leaves the failure counter below the
threshold whatever the probe returns, so the circuit does not reopen on a failed
probe: the next guarded call, whenever it is made, invokes the wrapped function
and returns the outcome of its own attempt instead of being rejected. -/
theorem failed_probe_leaves_circuit_closed {T : Type} [Inhabited T] (c : Circuit)
    (probe next : Call T)
    (hopen : c.FailureThreshold ≤ c.counterFailure)
    (hrec : c.TryingRecovery = true)
    (hpast : c.lastAttempt + c.RetryAt < probe.now)
    (hthr : 2 ≤ c.FailureThreshold) :
    (Breaker c probe).2.invoked = true ∧
    (Breaker c probe).1.counterFailure < (Breaker c probe).1.FailureThreshold ∧
    (Breaker (Breaker c probe).1 next).2.invoked = true ∧
    (Breaker (Breaker c probe).1 next).2 = (attempt (Breaker c probe).1 next).2 ∧
    (Breaker (Breaker c probe).1 next).2 ≠ rejected T := by
  have hB := Breaker_open_recover c probe hopen hpast hrec
  have hlt : (ResetCountFailure c).counterFailure < (ResetCountFailure c).FailureThreshold := by
    show 0 < c.FailureThreshold
    omega
  rw [hB]
  simp only []
  rw [Breaker_below (ResetCountFailure c) next hlt]
  have hi := attempt_invoked (ResetCountFailure c) next
  refine ⟨trivial, hlt, hi, rfl, ?_⟩
  intro hrej
  rw [hrej] at hi
  exact Bool.false_ne_true hi

theorem failed_probe_leaves_circuit_closed_witness :
    (Breaker (Breaker openCircuit (errCall (31 * Second) 0 (GoError.other 9))).1
      (errCall (32 * Second) 0 (GoError.other 9))).2.invoked = true :=
  (failed_probe_leaves_circuit_closed openCircuit (errCall (31 * Second) 0 (GoError.other 9))
    (errCall (32 * Second) 0 (GoError.other 9)) (by decide) (by decide) (by decide)
    (by decide)).2.2.1

/-- C3. On an open circuit with `TryingRecovery` true, a guarded call made
later than `lastAttempt + RetryAt` whose wrapped function returns with a nil
error returns that function's value with a nil error and leaves the failure
counter at zero; with a threshold of at least one, the guarded call that
follows is an ordinary attempt: it invokes the wrapped function and goes
through the bounded execution. -/
theorem successful_probe_closes_circuit {T : Type} [Inhabited T] (c : Circuit)
    (probe : Call T) (d : Nat)
    (hopen : c.FailureThreshold ≤ c.counterFailure)
    (hrec : c.TryingRecovery = true)
    (hpast : c.lastAttempt + c.RetryAt < probe.now)
    (hop : probe.opAfter = some d) (herr : probe.err = none) :
    (Breaker c probe).2.ret = some (probe.res, none) ∧
    (Breaker c probe).2.invoked = true ∧
    (Breaker c probe).1.counterFailure = 0 ∧
    (1 ≤ c.FailureThreshold → ∀ next : Call T,
      Breaker (Breaker c probe).1 next = attempt (Breaker c probe).1 next ∧
      (Breaker (Breaker c probe).1 next).2.invoked = true) := by
  have hB := Breaker_open_recover c probe hopen hpast hrec
  rw [hB, hop, herr]
  refine ⟨rfl, rfl, rfl, ?_⟩
  intro hthr next
  have hlt : (ResetCountFailure c).counterFailure < (ResetCountFailure c).FailureThreshold := by
    show 0 < c.FailureThreshold
    omega
  simp only []
  rw [Breaker_below (ResetCountFailure c) next hlt]
  exact ⟨rfl, attempt_invoked _ _⟩

theorem successful_probe_closes_circuit_witness :
    (Breaker openCircuit (okCall (31 * Second) 42)).2.ret = some (42, none) ∧
    (Breaker openCircuit (okCall (31 * Second) 42)).1.counterFailure = 0 ∧
    (Breaker (Breaker openCircuit (okCall (31 * Second) 42)).1 (okCall (32 * Second) 43)).2.invoked
      = true :=
  have h := successful_probe_closes_circuit openCircuit (okCall (31 * Second) 42) 1000000
    (by decide) (by decide) (by decide) rfl rfl
  ⟨h.1, h.2.2.1, (h.2.2.2 (by decide) (okCall (32 * Second) 43)).2⟩

/-- C6, as stated, fails where the cancelled context is not the only case of
the `select` that can proceed. With `Timeout` configured to `-1` the timer has
fired as well, and when the runtime takes that case the call returns
`ErrTimeout`, not the context error. With the default settings and a wrapped
function whose result is already waiting, the runtime may take the `done` case:
the call returns `7` with a nil error and the counter is zero, not one. -/
theorem cancelled_context_counterexample :
    (ConfigureCircuit NewCircuit negativeTimeout).counterFailure
      < (ConfigureCircuit NewCircuit negativeTimeout).FailureThreshold ∧
    cancelledCallSecondReady.ctxAfter = some 0 ∧
    (Breaker (ConfigureCircuit NewCircuit negativeTimeout) cancelledCallSecondReady).2.ret
      = some (0, some GoError.ErrTimeout) ∧
    cancelledCallSecondReady.ctxErr ≠ GoError.ErrTimeout ∧
    NewCircuit.counterFailure < NewCircuit.FailureThreshold ∧
    cancelledCallInstantOp.ctxAfter = some 0 ∧
    (Breaker NewCircuit cancelledCallInstantOp).2.ret = some (7, none) ∧
    (Breaker NewCircuit cancelledCallInstantOp).1.counterFailure = 0 := by
  decide

/-- C6, amended. Below the threshold, with a positive `Timeout`, a guarded call
made with a context that is already cancelled, whose wrapped function has not
returned yet when the `select` is entered, returns the zero value with the
context's own error; the failure counter is its previous value plus one. -/
theorem cancelled_context_returns_ctx_error {T : Type} [Inhabited T] (c : Circuit)
    (call : Call T)
    (hlt : c.counterFailure < c.FailureThreshold)
    (hu : c.FailureThreshold < uintSize)
    (hcancel : call.ctxAfter = some 0)
    (htimeout : 0 < c.Timeout)
    (hop : ∀ d, call.opAfter = some d → 0 < d) :
    (Breaker c call).2.ret = some (default, some call.ctxErr) ∧
    (Breaker c call).1.counterFailure = c.counterFailure + 1 ∧
    (Breaker c call).1 =
      { c with lastAttempt := call.started, counterFailure := c.counterFailure + 1 } := by
  have htimer : 0 < timerAfter c.Timeout := by
    have hz : (0 : Int) < c.Timeout := htimeout
    unfold timerAfter
    omega
  have hs : selectCase c.Timeout call.opAfter call.ctxAfter call.pick = SelectCase.ctxDone := by
    rw [hcancel]
    exact selectCase_ctxDone_of_first c.Timeout call.opAfter 0 call.pick htimer hop
  have hmod : (c.counterFailure + 1) % uintSize = c.counterFailure + 1 :=
    Nat.mod_eq_of_lt (by omega)
  rw [Breaker_below c call hlt, attempt_ctxDone c call hs, hmod]
  exact ⟨rfl, rfl, rfl⟩

theorem cancelled_context_returns_ctx_error_witness :
    (Breaker NewCircuit (cancelledCall 3)).2.ret = some (default, some (GoError.other 1)) ∧
    (Breaker NewCircuit (cancelledCall 3)).1.counterFailure = 0 + 1 :=
  have h := cancelled_context_returns_ctx_error NewCircuit (cancelledCall 3) (by decide)
    (by decide) rfl (by decide) (by intro d hd; cases hd; decide)
  ⟨h.1, h.2.1⟩

/-- C10. A guarded call is rejected at the fast check (the circuit `c` seen
under the read lock is open and the recovery test fails) or at the re-check
(`c` is below its threshold but the circuit `c2` found under the write lock is
open). In both cases the call returns the zero value with
`ErrFailureThreshold`, does not invoke the wrapped function, and leaves the
circuit it found, counter, `lastAttempt` and settings, exactly as it was.
These are the only calls that do not invoke the wrapped function. -/
theorem rejected_call_changes_nothing {T : Type} [Inhabited T] (c c2 : Circuit)
    (call : Call T) :
    (c.FailureThreshold ≤ c.counterFailure →
      ¬ (c.lastAttempt + c.RetryAt < call.now ∧ c.TryingRecovery = true) →
      BreakerWith c c2 call =
        (c, { invoked := false, ret := some (default, some GoError.ErrFailureThreshold) })) ∧
    (c.counterFailure < c.FailureThreshold → c2.FailureThreshold ≤ c2.counterFailure →
      BreakerWith c c2 call =
        (c2, { invoked := false, ret := some (default, some GoError.ErrFailureThreshold) })) ∧
    ((BreakerWith c c2 call).2.invoked = false →
      (c.FailureThreshold ≤ c.counterFailure ∧
        ¬ (c.lastAttempt + c.RetryAt < call.now ∧ c.TryingRecovery = true)) ∨
      (c.counterFailure < c.FailureThreshold ∧ c2.FailureThreshold ≤ c2.counterFailure)) := by
  refine ⟨?_, ?_, ?_⟩
  · intro hopen hno
    have h' : c.counterFailure ≥ c.FailureThreshold := hopen
    simp only [BreakerWith, h', if_true]
    rw [if_neg]
    · rfl
    · simpa using hno
  · intro hlt hopen2
    have h' : ¬ c.counterFailure ≥ c.FailureThreshold := by omega
    have h2 : c2.counterFailure ≥ c2.FailureThreshold := hopen2
    simp only [BreakerWith, h', h2, if_true, if_false]
    rfl
  · intro hinv
    by_cases hopen : c.FailureThreshold ≤ c.counterFailure
    · left
      refine ⟨hopen, ?_⟩
      intro hr
      have h' : c.counterFailure ≥ c.FailureThreshold := hopen
      simp [BreakerWith, h', hr.1, hr.2] at hinv
    · right
      refine ⟨by omega, ?_⟩
      by_contra hclosed2
      have h' : ¬ c.counterFailure ≥ c.FailureThreshold := hopen
      have h2 : ¬ c2.counterFailure ≥ c2.FailureThreshold := hclosed2
      simp only [BreakerWith, h', h2, if_false] at hinv
      rw [attempt_invoked] at hinv
      exact Bool.false_ne_true hinv.symm

theorem rejected_call_changes_nothing_witness :
    BreakerWith openCircuit NewCircuit (okCall 5 1) =
      (openCircuit, { invoked := false, ret := some (default, some GoError.ErrFailureThreshold) }) ∧
    BreakerWith NewCircuit openCircuit (okCall 5 1) =
      (openCircuit, { invoked := false, ret := some (default, some GoError.ErrFailureThreshold) }) :=
  ⟨(rejected_call_changes_nothing openCircuit NewCircuit (okCall 5 1)).1 (by decide) (by decide),
   (rejected_call_changes_nothing NewCircuit openCircuit (okCall 5 1)).2.1 (by decide)
     (by decide)⟩

/-! ## Configuration -/

theorem ConfigureCircuit_eq (c : Circuit) (s : Settings) :
    ConfigureCircuit c s =
      { c with
        FailureThreshold :=
          if s.FailureThreshold = 0 then defaultFailureThreshold else s.FailureThreshold
        Timeout := if s.Timeout = 0 then defaultTimeout else s.Timeout
        Interval := if s.Interval = 0 then defaultInterval else s.Interval
        RetryAt := if s.RetryAt = 0 then defaultRetryAt else s.RetryAt } := by
  unfold ConfigureCircuit
  cases hr : s.TryingRecovery <;> simp only [Bool.not_false, Bool.not_true, if_true] <;>
    split_ifs <;> rfl

theorem ConfigureCircuit_threshold_pos (c : Circuit) (s : Settings) :
    1 ≤ (ConfigureCircuit c s).FailureThreshold := by
  rw [ConfigureCircuit_eq]
  show 1 ≤ (if s.FailureThreshold = 0 then defaultFailureThreshold else s.FailureThreshold)
  split_ifs with h
  · decide
  · omega

theorem ConfigureCircuit_TryingRecovery (c : Circuit) (s : Settings) :
    (ConfigureCircuit c s).TryingRecovery = c.TryingRecovery := by
  rw [ConfigureCircuit_eq]

theorem ConfigureCircuit_twice (c : Circuit) (s1 s2 : Settings) :
    ConfigureCircuit (ConfigureCircuit c s1) s2 = ConfigureCircuit c s2 := by
  rw [ConfigureCircuit_eq (ConfigureCircuit c s1) s2, ConfigureCircuit_eq c s2,
    ConfigureCircuit_eq c s1]

theorem foldl_ConfigureCircuit_TryingRecovery (l : List Settings) :
    ∀ c : Circuit, (l.foldl ConfigureCircuit c).TryingRecovery = c.TryingRecovery := by
  induction l with
  | nil => intro c; rfl
  | cons s rest ih =>
    intro c
    rw [List.foldl_cons, ih, ConfigureCircuit_TryingRecovery]

/-- C12, as stated, fails for `TryingRecovery`: on a circuit whose
`TryingRecovery` is false, configuring with `Settings{}` (the field left at its
zero value) leaves it false, where the claim has the default `true`. -/
theorem configure_defaults_counterexample :
    zeroSettings.TryingRecovery = false ∧
    (ConfigureCircuit noRecoveryCircuit zeroSettings).TryingRecovery = false ∧
    (ConfigureCircuit noRecoveryCircuit zeroSettings).FailureThreshold = 5 := by
  decide

/-- C12, amended. After `ConfigureCircuit(s)` each of `FailureThreshold`,
`Timeout`, `Interval` and `RetryAt` is the supplied field when that field is
non-zero and the default otherwise (5, 5 s, 0, 30 s), so `FailureThreshold`,
`Timeout` and `RetryAt` are never zero; and on a circuit whose `TryingRecovery`
is true before the call, as on every circuit built by `NewCircuit`, it is true
after the call, whatever the supplied `TryingRecovery`. -/
theorem configure_defaults (c : Circuit) (s : Settings) :
    (ConfigureCircuit c s).FailureThreshold
      = (if s.FailureThreshold = 0 then 5 else s.FailureThreshold) ∧
    (ConfigureCircuit c s).Timeout = (if s.Timeout = 0 then 5000000000 else s.Timeout) ∧
    (ConfigureCircuit c s).Interval = (if s.Interval = 0 then 0 else s.Interval) ∧
    (ConfigureCircuit c s).RetryAt = (if s.RetryAt = 0 then 30000000000 else s.RetryAt) ∧
    (ConfigureCircuit c s).FailureThreshold ≠ 0 ∧
    (ConfigureCircuit c s).Timeout ≠ 0 ∧
    (ConfigureCircuit c s).RetryAt ≠ 0 ∧
    (c.TryingRecovery = true → (ConfigureCircuit c s).TryingRecovery = true) := by
  have hT : defaultTimeout = 5000000000 := by decide
  have hR : defaultRetryAt = 30000000000 := by decide
  rw [ConfigureCircuit_eq]
  refine ⟨rfl, ?_, rfl, ?_, ?_, ?_, ?_, fun h => h⟩
  · show (if s.Timeout = 0 then defaultTimeout else s.Timeout) = _
    rw [hT]
  · show (if s.RetryAt = 0 then defaultRetryAt else s.RetryAt) = _
    rw [hR]
  · show (if s.FailureThreshold = 0 then defaultFailureThreshold else s.FailureThreshold) ≠ 0
    split_ifs with h
    · decide
    · exact h
  · show (if s.Timeout = 0 then defaultTimeout else s.Timeout) ≠ 0
    split_ifs with h
    · decide
    · exact h
  · show (if s.RetryAt = 0 then defaultRetryAt else s.RetryAt) ≠ 0
    split_ifs with h
    · decide
    · exact h

theorem configure_defaults_witness :
    NewCircuit.TryingRecovery = true ∧
    (ConfigureCircuit NewCircuit zeroSettings).TryingRecovery = true :=
  ⟨rfl, (configure_defaults NewCircuit zeroSettings).2.2.2.2.2.2.2 rfl⟩

/-- C13. `ConfigureCircuit` leaves the failure counter and the last-attempt
timestamp as they were: the result is the old circuit with new settings. -/
theorem configure_keeps_counters (c : Circuit) (s : Settings) :
    (ConfigureCircuit c s).counterFailure = c.counterFailure ∧
    (ConfigureCircuit c s).lastAttempt = c.lastAttempt ∧
    ConfigureCircuit c s = { c with toSettings := (ConfigureCircuit c s).toSettings } := by
  rw [ConfigureCircuit_eq]
  exact ⟨rfl, rfl, rfl⟩

/-- C15. `NewCircuit` has a zero failure counter, the zero timestamp and the
default tunables (threshold 5, timeout 5 s, interval 0, retry after 30 s,
recovery on); the first guarded call on it passes both checks, invokes the
wrapped function and runs the bounded execution. -/
theorem new_circuit_defaults_and_first_call {T : Type} [Inhabited T] (call : Call T) :
    NewCircuit.counterFailure = 0 ∧
    NewCircuit.lastAttempt = 0 ∧
    NewCircuit.FailureThreshold = 5 ∧
    NewCircuit.Timeout = 5000000000 ∧
    NewCircuit.Interval = 0 ∧
    NewCircuit.RetryAt = 30000000000 ∧
    NewCircuit.TryingRecovery = true ∧
    Breaker NewCircuit call = attempt NewCircuit call ∧
    (Breaker NewCircuit call).2.invoked = true ∧
    (Breaker NewCircuit call).2 ≠ rejected T := by
  have hB : Breaker NewCircuit call = attempt NewCircuit call :=
    Breaker_below NewCircuit call (by decide)
  have hi := attempt_invoked NewCircuit call
  refine ⟨rfl, rfl, rfl, by decide, rfl, by decide, rfl, hB, ?_, ?_⟩
  · rw [hB]; exact hi
  · rw [hB]
    intro hrej
    rw [hrej] at hi
    exact Bool.false_ne_true hi

/-- C19. `ConfigureCircuit` never changes `TryingRecovery`, whatever the
supplied settings; so a circuit built by `NewCircuit` and configured any number
of times has `TryingRecovery` true. The other four tunables after a
configuration depend on the supplied settings alone: configuring with `s1` and
then `s2` gives the circuit that configuring with `s2` alone gives, and
configuring twice with `s` is configuring once. -/
theorem configure_never_touches_TryingRecovery (c c2 : Circuit) (s s1 s2 : Settings)
    (l : List Settings) :
    (ConfigureCircuit c s).TryingRecovery = c.TryingRecovery ∧
    (l.foldl ConfigureCircuit NewCircuit).TryingRecovery = true ∧
    ((ConfigureCircuit c s).FailureThreshold = (ConfigureCircuit c2 s).FailureThreshold ∧
     (ConfigureCircuit c s).Timeout = (ConfigureCircuit c2 s).Timeout ∧
     (ConfigureCircuit c s).Interval = (ConfigureCircuit c2 s).Interval ∧
     (ConfigureCircuit c s).RetryAt = (ConfigureCircuit c2 s).RetryAt) ∧
    ConfigureCircuit (ConfigureCircuit c s1) s2 = ConfigureCircuit c s2 ∧
    ConfigureCircuit (ConfigureCircuit c s) s = ConfigureCircuit c s := by
  refine ⟨ConfigureCircuit_TryingRecovery c s, ?_, ?_, ConfigureCircuit_twice c s1 s2,
    ConfigureCircuit_twice c s s⟩
  · rw [foldl_ConfigureCircuit_TryingRecovery]; rfl
  · rw [ConfigureCircuit_eq c s, ConfigureCircuit_eq c2 s]
    exact ⟨rfl, rfl, rfl, rfl⟩

/-! ## Every path of a call -/

theorem attempt_ret_cases {T : Type} [Inhabited T] (c : Circuit) (call : Call T) :
    (attempt c call).2.ret = some (call.res, call.err) ∨
    (attempt c call).2.ret = some (default, some call.ctxErr) ∨
    (attempt c call).2.ret = some (default, some GoError.ErrTimeout) := by
  cases hs : selectCase c.Timeout call.opAfter call.ctxAfter call.pick with
  | done =>
    cases he : call.err with
    | none => rw [attempt_done_ok c call hs he]; exact Or.inl rfl
    | some e => rw [attempt_done_err c call e hs he]; exact Or.inl rfl
  | ctxDone => rw [attempt_ctxDone c call hs]; exact Or.inr (Or.inl rfl)
  | timeout => rw [attempt_timeout c call hs]; exact Or.inr (Or.inr rfl)

theorem attempt_counter_cases {T : Type} [Inhabited T] (c : Circuit) (call : Call T) :
    (attempt c call).1.counterFailure = 0 ∨
    (attempt c call).1.counterFailure = (c.counterFailure + 1) % uintSize := by
  cases hs : selectCase c.Timeout call.opAfter call.ctxAfter call.pick with
  | done =>
    cases he : call.err with
    | none => rw [attempt_done_ok c call hs he]; exact Or.inl rfl
    | some e => rw [attempt_done_err c call e hs he]; exact Or.inr rfl
  | ctxDone => rw [attempt_ctxDone c call hs]; exact Or.inr rfl
  | timeout => rw [attempt_timeout c call hs]; exact Or.inr rfl

/-- The three ways through the closure: recovery, rejection, attempt. -/
theorem BreakerWith_cases {T : Type} [Inhabited T] (c c2 : Circuit) (call : Call T) :
    ((c.FailureThreshold ≤ c.counterFailure ∧ c.lastAttempt + c.RetryAt < call.now ∧
        c.TryingRecovery = true) ∧
      BreakerWith c c2 call =
        (ResetCountFailure c,
         { invoked := true, ret := call.opAfter.map (fun _ => (call.res, call.err)) })) ∨
    (¬ (c.FailureThreshold ≤ c.counterFailure ∧ c.lastAttempt + c.RetryAt < call.now ∧
        c.TryingRecovery = true) ∧
      (BreakerWith c c2 call = (c, rejected T) ∨ BreakerWith c c2 call = (c2, rejected T))) ∨
    (¬ (c.FailureThreshold ≤ c.counterFailure ∧ c.lastAttempt + c.RetryAt < call.now ∧
        c.TryingRecovery = true) ∧
      c2.counterFailure < c2.FailureThreshold ∧
      BreakerWith c c2 call = attempt c2 call) := by
  by_cases hopen : c.FailureThreshold ≤ c.counterFailure
  · have h' : c.counterFailure ≥ c.FailureThreshold := hopen
    by_cases hr : c.lastAttempt + c.RetryAt < call.now ∧ c.TryingRecovery = true
    · left
      refine ⟨⟨hopen, hr.1, hr.2⟩, ?_⟩
      simp [BreakerWith, h', hr.1, hr.2]
    · right; left
      refine ⟨fun h => hr ⟨h.2.1, h.2.2⟩, Or.inl ?_⟩
      simp only [BreakerWith, h', if_true]
      rw [if_neg]
      simpa using hr
  · have h' : ¬ c.counterFailure ≥ c.FailureThreshold := hopen
    by_cases hopen2 : c2.FailureThreshold ≤ c2.counterFailure
    · right; left
      have h2 : c2.counterFailure ≥ c2.FailureThreshold := hopen2
      refine ⟨fun h => hopen h.1, Or.inr ?_⟩
      simp only [BreakerWith, h', h2, if_true, if_false]
    · right; right
      have h2 : ¬ c2.counterFailure ≥ c2.FailureThreshold := hopen2
      refine ⟨fun h => hopen h.1, by omega, ?_⟩
      simp only [BreakerWith, h', h2, if_false]

theorem Breaker_toSettings {T : Type} [Inhabited T] (c : Circuit) (call : Call T) :
    (Breaker c call).1.toSettings = c.toSettings := by
  unfold Breaker
  rcases BreakerWith_cases c c call with ⟨_, h⟩ | ⟨_, h | h⟩ | ⟨_, _, h⟩
  · rw [h]; rfl
  · rw [h]
  · rw [h]
  · rw [h]; exact attempt_toSettings c call

theorem Breaker_counter_le {T : Type} [Inhabited T] (c : Circuit) (call : Call T)
    (hle : c.counterFailure ≤ c.FailureThreshold) :
    (Breaker c call).1.counterFailure ≤ c.FailureThreshold ∧
    (Breaker c call).1.counterFailure ≤ c.counterFailure + 1 := by
  unfold Breaker
  rcases BreakerWith_cases c c call with ⟨_, h⟩ | ⟨_, h | h⟩ | ⟨_, hlt, h⟩
  · rw [h]
    exact ⟨Nat.zero_le _, Nat.zero_le _⟩
  · rw [h]; exact ⟨hle, Nat.le_succ _⟩
  · rw [h]; exact ⟨hle, Nat.le_succ _⟩
  · rw [h]
    have hmod : (c.counterFailure + 1) % uintSize ≤ c.counterFailure + 1 := Nat.mod_le _ _
    rcases attempt_counter_cases c call with h0 | h1
    · rw [h0]; exact ⟨Nat.zero_le _, Nat.zero_le _⟩
    · rw [h1]; exact ⟨by omega, hmod⟩

theorem applyStep_threshold_pos {T : Type} [Inhabited T] (c : Circuit) (st : Step T)
    (h : 1 ≤ c.FailureThreshold) : 1 ≤ (applyStep c st).FailureThreshold := by
  cases st with
  | configure s => exact ConfigureCircuit_threshold_pos c s
  | call call =>
    show 1 ≤ (Breaker c call).1.toSettings.FailureThreshold
    rw [Breaker_toSettings]; exact h
  | reset => exact h

theorem runSteps_threshold_pos {T : Type} [Inhabited T] (steps : List (Step T)) :
    ∀ c : Circuit, 1 ≤ c.FailureThreshold → 1 ≤ (runSteps c steps).FailureThreshold := by
  induction steps with
  | nil => intro c h; exact h
  | cons st rest ih =>
    intro c h
    exact ih (applyStep c st) (applyStep_threshold_pos c st h)

theorem runSteps_counter_le {T : Type} [Inhabited T] (steps : List (Step T)) :
    ∀ c : Circuit, c.counterFailure ≤ c.FailureThreshold →
      (∀ st ∈ steps, st.keepsSettings = true) →
      (runSteps c steps).counterFailure ≤ (runSteps c steps).FailureThreshold ∧
      (runSteps c steps).toSettings = c.toSettings := by
  induction steps with
  | nil => intro c h _; exact ⟨h, rfl⟩
  | cons st rest ih =>
    intro c h hk
    have hst := hk st (List.mem_cons_self _ _)
    have hrest : ∀ x ∈ rest, x.keepsSettings = true :=
      fun x hx => hk x (List.mem_cons_of_mem _ hx)
    have hstep : (applyStep c st).counterFailure ≤ (applyStep c st).FailureThreshold ∧
        (applyStep c st).toSettings = c.toSettings := by
      cases st with
      | configure s => simp [Step.keepsSettings] at hst
      | call call =>
        have hs := Breaker_toSettings c call
        refine ⟨?_, hs⟩
        show (Breaker c call).1.counterFailure ≤ (Breaker c call).1.toSettings.FailureThreshold
        rw [hs]
        exact (Breaker_counter_le c call h).1
      | reset => exact ⟨Nat.zero_le _, rfl⟩
    obtain ⟨h1, h2⟩ := ih (applyStep c st) hstep.1 hrest
    exact ⟨h1, h2.trans hstep.2⟩

/-! ## Claims on results, reset and the recovery branch -/

/-- C11, as stated, fails: on a fresh circuit, a wrapped function that returns
the value `7` together with an error has both handed back by the guarded call;
the value is not the zero value. -/
theorem zero_value_on_error_counterexample :
    (Breaker NewCircuit (errCall 3 7 (GoError.other 9))).2.ret
      = some (7, some (GoError.other 9)) ∧
    (7 : Nat) ≠ default := by
  decide

/-- C11, amended. A guarded call that returns a non-nil error returns either
the zero value of `T` (with `ErrTimeout`, the context error or
`ErrFailureThreshold`) or the very pair the wrapped function returned, value
and error passed through unchanged; a call that returns a nil error returns the
wrapped function's value. Every call that is not admitted as a recovery probe
does return. -/
theorem result_envelope {T : Type} [Inhabited T] (c c2 : Circuit) (call : Call T) :
    (∀ v e, (BreakerWith c c2 call).2.ret = some (v, some e) →
      (v = default ∧
        (e = GoError.ErrTimeout ∨ e = call.ctxErr ∨ e = GoError.ErrFailureThreshold)) ∨
      (v = call.res ∧ call.err = some e)) ∧
    (∀ v, (BreakerWith c c2 call).2.ret = some (v, none) →
      v = call.res ∧ call.err = none) ∧
    (¬ (c.FailureThreshold ≤ c.counterFailure ∧ c.lastAttempt + c.RetryAt < call.now ∧
        c.TryingRecovery = true) →
      ∃ p, (BreakerWith c c2 call).2.ret = some p) := by
  rcases BreakerWith_cases c c2 call with ⟨hp, h⟩ | ⟨hn, h | h⟩ | ⟨hn, _, h⟩
  · rw [h]
    refine ⟨?_, ?_, fun hno => absurd hp hno⟩
    · intro v e hve
      right
      cases hop : call.opAfter with
      | none => rw [hop] at hve; simp at hve
      | some d =>
        rw [hop] at hve
        simp only [Option.map_some', Option.some.injEq, Prod.mk.injEq] at hve
        exact ⟨hve.1.symm, hve.2⟩
    · intro v hve
      cases hop : call.opAfter with
      | none => rw [hop] at hve; simp at hve
      | some d =>
        rw [hop] at hve
        simp only [Option.map_some', Option.some.injEq, Prod.mk.injEq] at hve
        exact ⟨hve.1.symm, hve.2⟩
  · rw [h]
    refine ⟨?_, ?_, fun _ => ⟨_, rfl⟩⟩
    · intro v e hve
      simp only [rejected, Option.some.injEq, Prod.mk.injEq] at hve
      exact Or.inl ⟨hve.1.symm, Or.inr (Or.inr hve.2.symm)⟩
    · intro v hve
      simp [rejected] at hve
  · rw [h]
    refine ⟨?_, ?_, fun _ => ⟨_, rfl⟩⟩
    · intro v e hve
      simp only [rejected, Option.some.injEq, Prod.mk.injEq] at hve
      exact Or.inl ⟨hve.1.symm, Or.inr (Or.inr hve.2.symm)⟩
    · intro v hve
      simp [rejected] at hve
  · rw [h]
    rcases attempt_ret_cases c2 call with hr | hr | hr
    · rw [hr]
      refine ⟨?_, ?_, fun _ => ⟨_, rfl⟩⟩
      · intro v e hve
        simp only [Option.some.injEq, Prod.mk.injEq] at hve
        exact Or.inr ⟨hve.1.symm, hve.2⟩
      · intro v hve
        simp only [Option.some.injEq, Prod.mk.injEq] at hve
        exact ⟨hve.1.symm, hve.2⟩
    · rw [hr]
      refine ⟨?_, ?_, fun _ => ⟨_, rfl⟩⟩
      · intro v e hve
        simp only [Option.some.injEq, Prod.mk.injEq] at hve
        exact Or.inl ⟨hve.1.symm, Or.inr (Or.inl hve.2.symm)⟩
      · intro v hve
        simp at hve
    · rw [hr]
      refine ⟨?_, ?_, fun _ => ⟨_, rfl⟩⟩
      · intro v e hve
        simp only [Option.some.injEq, Prod.mk.injEq] at hve
        exact Or.inl ⟨hve.1.symm, Or.inl hve.2.symm⟩
      · intro v hve
        simp at hve

theorem result_envelope_witness :
    ((0 : Nat) = default ∧
      (GoError.ErrTimeout = GoError.ErrTimeout ∨
        GoError.ErrTimeout = (hangingCall 3).ctxErr ∨
        GoError.ErrTimeout = GoError.ErrFailureThreshold)) ∨
      ((0 : Nat) = (hangingCall 3).res ∧ (hangingCall 3).err = some GoError.ErrTimeout) :=
  (result_envelope NewCircuit NewCircuit (hangingCall 3)).1 0 GoError.ErrTimeout (by decide)

/-- C14. On every circuit reached from `NewCircuit` by configurations, guarded
calls and resets, whatever the clock reads, `ResetCountFailure` sets the
failure counter to zero and leaves `lastAttempt` and the settings alone, and
the guarded call that follows is admitted: it passes both checks, invokes the
wrapped function, returns the outcome of its own attempt and is not the
rejection; its error is `ErrFailureThreshold` only if the wrapped function or
the context supplied that very error. -/
theorem reset_then_call_admitted {T : Type} [Inhabited T] (steps : List (Step T))
    (call : Call T) :
    (ResetCountFailure (runSteps NewCircuit steps)).counterFailure = 0 ∧
    (ResetCountFailure (runSteps NewCircuit steps)).lastAttempt
      = (runSteps NewCircuit steps).lastAttempt ∧
    (ResetCountFailure (runSteps NewCircuit steps)).toSettings
      = (runSteps NewCircuit steps).toSettings ∧
    Breaker (ResetCountFailure (runSteps NewCircuit steps)) call
      = attempt (ResetCountFailure (runSteps NewCircuit steps)) call ∧
    (Breaker (ResetCountFailure (runSteps NewCircuit steps)) call).2.invoked = true ∧
    (Breaker (ResetCountFailure (runSteps NewCircuit steps)) call).2 ≠ rejected T ∧
    (∃ p, (Breaker (ResetCountFailure (runSteps NewCircuit steps)) call).2.ret = some p) ∧
    (call.err ≠ some GoError.ErrFailureThreshold →
      call.ctxErr ≠ GoError.ErrFailureThreshold →
      ∀ v, (Breaker (ResetCountFailure (runSteps NewCircuit steps)) call).2.ret
        ≠ some (v, some GoError.ErrFailureThreshold)) := by
  have hpos : 1 ≤ (runSteps NewCircuit steps).FailureThreshold :=
    runSteps_threshold_pos steps NewCircuit (by decide)
  have hlt : (ResetCountFailure (runSteps NewCircuit steps)).counterFailure
      < (ResetCountFailure (runSteps NewCircuit steps)).FailureThreshold := by
    show 0 < (runSteps NewCircuit steps).FailureThreshold
    omega
  have hB := Breaker_below (ResetCountFailure (runSteps NewCircuit steps)) call hlt
  have hi := attempt_invoked (ResetCountFailure (runSteps NewCircuit steps)) call
  rw [hB]
  refine ⟨rfl, rfl, rfl, rfl, hi, ?_, ?_, ?_⟩
  · intro hrej
    rw [hrej] at hi
    exact Bool.false_ne_true hi
  · rcases attempt_ret_cases (ResetCountFailure (runSteps NewCircuit steps)) call
      with hr | hr | hr <;> exact ⟨_, hr⟩
  · intro he hc v hv
    rcases attempt_ret_cases (ResetCountFailure (runSteps NewCircuit steps)) call
      with hr | hr | hr
    · rw [hr] at hv
      simp only [Option.some.injEq, Prod.mk.injEq] at hv
      exact he hv.2
    · rw [hr] at hv
      simp only [Option.some.injEq, Prod.mk.injEq] at hv
      exact hc hv.2
    · rw [hr] at hv
      simp at hv

theorem reset_then_call_admitted_witness :
    (Breaker (ResetCountFailure (runSteps NewCircuit
        [Step.call (cancelledCall 1), Step.configure negativeTimeout,
         Step.call (cancelledCall 2)]))
      (cancelledCall 3)).2.ret ≠ some (0, some GoError.ErrFailureThreshold) :=
  (reset_then_call_admitted
    [Step.call (cancelledCall 1), Step.configure negativeTimeout, Step.call (cancelledCall 2)]
    (cancelledCall 3)).2.2.2.2.2.2.2 (by decide) (by decide) 0

/-- C17 at its failing input. The open circuit with the default settings, last
attempted at instant `0`, admits the call made at second 31 as the recovery
probe: the wrapped function is invoked, yet `lastAttempt` after the call is
still `0`, not the instant the probe started. An ordinary attempt on the same
circuit with a zero counter stores the start instant. -/
theorem probe_keeps_old_lastAttempt :
    (Breaker openCircuit (okCall (31 * Second) 42)).2.invoked = true ∧
    (okCall (31 * Second) 42).started = 31000000000 ∧
    (Breaker openCircuit (okCall (31 * Second) 42)).1.lastAttempt = 0 ∧
    (Breaker (ResetCountFailure openCircuit) (okCall (31 * Second) 42)).1.lastAttempt
      = 31000000000 := by
  decide

/-- C18 at its failing inputs. On the open circuit with the default settings,
last attempted at instant `0`, the probe at second 31 does not behave like a
call on the same circuit with the counter set to zero. With a wrapped function
that never returns, the probe never returns and the counter stays zero, where
the call on the reset circuit returns `ErrTimeout` and counts one. With a
cancelled context, the probe returns what the wrapped function returns after
ten seconds and the counter stays zero, where the call on the reset circuit
returns the context error and counts one. With a wrapped function that returns
an error, the probe leaves the counter at zero, where the call on the reset
circuit counts one. -/
theorem probe_skips_bounded_execution :
    (Breaker openCircuit (hangingCall (31 * Second))).2.ret = none ∧
    (Breaker openCircuit (hangingCall (31 * Second))).1.counterFailure = 0 ∧
    (Breaker (ResetCountFailure openCircuit) (hangingCall (31 * Second))).2.ret
      = some (0, some GoError.ErrTimeout) ∧
    (Breaker (ResetCountFailure openCircuit) (hangingCall (31 * Second))).1.counterFailure = 1 ∧
    (Breaker openCircuit (cancelledCall (31 * Second))).2.ret = some (0, none) ∧
    (Breaker openCircuit (cancelledCall (31 * Second))).1.counterFailure = 0 ∧
    (Breaker (ResetCountFailure openCircuit) (cancelledCall (31 * Second))).2.ret
      = some (0, some (GoError.other 1)) ∧
    (Breaker (ResetCountFailure openCircuit) (cancelledCall (31 * Second))).1.counterFailure
      = 1 ∧
    (Breaker openCircuit (errCall (31 * Second) 0 (GoError.other 9))).1.counterFailure = 0 ∧
    (Breaker (ResetCountFailure openCircuit)
      (errCall (31 * Second) 0 (GoError.other 9))).1.counterFailure = 1 := by
  decide

/-- C20. A guarded call on a circuit whose failure counter is at most the
threshold leaves the counter at most the threshold and at most one above its
previous value, and leaves the settings alone; with a threshold in the range
of `uint` the new counter is zero, the old value or the old value plus one, so
the increment never wraps. Hence every circuit reached from `NewCircuit` by
guarded calls and resets has its counter at most its threshold. -/
theorem counter_never_exceeds_threshold {T : Type} [Inhabited T] (c : Circuit) (call : Call T)
    (steps : List (Step T)) :
    (c.counterFailure ≤ c.FailureThreshold →
      (Breaker c call).1.counterFailure ≤ (Breaker c call).1.FailureThreshold ∧
      (Breaker c call).1.counterFailure ≤ c.counterFailure + 1 ∧
      (Breaker c call).1.toSettings = c.toSettings ∧
      (c.FailureThreshold < uintSize →
        (Breaker c call).1.counterFailure = 0 ∨
        (Breaker c call).1.counterFailure = c.counterFailure ∨
        (Breaker c call).1.counterFailure = c.counterFailure + 1)) ∧
    ((∀ st ∈ steps, st.keepsSettings = true) →
      (runSteps NewCircuit steps).counterFailure ≤ (runSteps NewCircuit steps).FailureThreshold) := by
  refine ⟨?_, ?_⟩
  · intro hle
    have hs := Breaker_toSettings c call
    have hb := Breaker_counter_le c call hle
    refine ⟨?_, hb.2, hs, ?_⟩
    · show (Breaker c call).1.counterFailure ≤ (Breaker c call).1.toSettings.FailureThreshold
      rw [hs]; exact hb.1
    · intro hu
      unfold Breaker
      rcases BreakerWith_cases c c call with ⟨_, h⟩ | ⟨_, h | h⟩ | ⟨_, hlt, h⟩
      · rw [h]; exact Or.inl rfl
      · rw [h]; exact Or.inr (Or.inl rfl)
      · rw [h]; exact Or.inr (Or.inl rfl)
      · rw [h]
        rcases attempt_counter_cases c call with h0 | h1
        · exact Or.inl h0
        · right; right
          rw [h1]
          exact Nat.mod_eq_of_lt (by omega)
  · intro hk
    exact (runSteps_counter_le steps NewCircuit (by decide) hk).1

theorem counter_never_exceeds_threshold_witness :
    (Breaker openCircuit (cancelledCall 3)).1.counterFailure
      ≤ (Breaker openCircuit (cancelledCall 3)).1.FailureThreshold ∧
    (runSteps NewCircuit (List.map Step.call (List.map cancelledCall [1, 2, 3, 4, 5, 6, 7])
      ++ [Step.reset, Step.call (cancelledCall 8)])).counterFailure
      ≤ (runSteps NewCircuit (List.map Step.call (List.map cancelledCall [1, 2, 3, 4, 5, 6, 7])
      ++ [Step.reset, Step.call (cancelledCall 8)])).FailureThreshold :=
  ⟨((counter_never_exceeds_threshold openCircuit (cancelledCall 3) []).1 (by decide)).1,
   (counter_never_exceeds_threshold NewCircuit (cancelledCall 3)
     (List.map Step.call (List.map cancelledCall [1, 2, 3, 4, 5, 6, 7])
      ++ [Step.reset, Step.call (cancelledCall 8)])).2 (by decide)⟩

/-- A call starts the wrapped function exactly when its result says so. -/
theorem execStart_isSome {T : Type} [Inhabited T] (c c2 : Circuit) (call : Call T) :
    (execStart c c2 call).isSome = (BreakerWith c c2 call).2.invoked := by
  unfold execStart BreakerWith
  by_cases hopen : c.counterFailure ≥ c.FailureThreshold
  · simp only [hopen, if_true]
    by_cases hr : (decide (c.lastAttempt + c.RetryAt < call.now) && c.TryingRecovery) = true
    · simp only [hr, if_true]; rfl
    · simp only [hr, if_false]; rfl
  · simp only [hopen, if_false]
    by_cases hopen2 : c2.counterFailure ≥ c2.FailureThreshold
    · simp only [hopen2, if_true]; rfl
    · simp only [hopen2, if_false]
      rw [attempt_invoked]; rfl

/-- C16 at its failing input. On the open circuit with the default settings,
last attempted at instant `0`, a first caller is admitted as the recovery probe
at second 31 with a wrapped function that takes ten seconds. The reset is the
probe's only write and comes before `cfn(ctx)` starts, and no lock is held
while it runs, so a second caller at second 32 finds the counter at zero, takes
the ordinary path and starts the wrapped function too: at second 32 both
executions are running. The probe's own outcome is not counted either: a probe
that fails leaves the counter at zero. -/
theorem probe_overlaps_next_attempt :
    (Breaker openCircuit (slowCall (31 * Second))).2.invoked = true ∧
    execStart openCircuit openCircuit (slowCall (31 * Second)) = some 31000000000 ∧
    (Breaker openCircuit (slowCall (31 * Second))).1.counterFailure = 0 ∧
    (Breaker (Breaker openCircuit (slowCall (31 * Second))).1
      (okCall (32 * Second) 43)).2.invoked = true ∧
    execStart (Breaker openCircuit (slowCall (31 * Second))).1
      (Breaker openCircuit (slowCall (31 * Second))).1 (okCall (32 * Second) 43)
      = some 32000000000 ∧
    running openCircuit (slowCall (31 * Second)) 32000000000 = true ∧
    running (Breaker openCircuit (slowCall (31 * Second))).1 (okCall (32 * Second) 43)
      32000000000 = true ∧
    (Breaker openCircuit (errCall (31 * Second) 0 (GoError.other 9))).2.ret
      = some (0, some (GoError.other 9)) ∧
    (Breaker openCircuit (errCall (31 * Second) 0 (GoError.other 9))).1.counterFailure = 0 := by
  decide

end circuitbreaker
